import Mathlib

/-!
Verification of the conversion core of `junit-to-ctrf` (`src/convert.ts`).

JavaScript strings are modelled as lists of UTF-16 code units (`JSStr`).
The platform function `String.prototype.normalize('NFC')` is not part of the
repository; every definition that needs it takes it as an explicit parameter
`norm : JSStr → JSStr`.  Theorems either hold for every `norm`, or assume the
two properties of real NFC normalization that they need (idempotence and
preservation of the character classes the sanitizer has already removed);
witnesses instantiate `norm` with `id`, which agrees with NFC on the ASCII
inputs they use.  JavaScript numbers are modelled exactly (`JSNum`): `NaN`,
signed infinities, and finite values as rationals.
-/

/-- A JavaScript string: a list of UTF-16 code units. -/
abbrev JSStr := List Nat

/-- Code units of an ASCII Lean string literal, for writing `JSStr` constants. -/
def lit (s : String) : JSStr := s.data.map Char.toNat

/-- The JavaScript `\s` class (also the set trimmed by `String.prototype.trim`):
whitespace and line terminators. -/
def isJSWhitespace (c : Nat) : Bool :=
  c == 0x9 || c == 0xA || c == 0xB || c == 0xC || c == 0xD || c == 0x20 ||
  c == 0xA0 || c == 0x1680 || (0x2000 ≤ c && c ≤ 0x200A) || c == 0x2028 ||
  c == 0x2029 || c == 0x202F || c == 0x205F || c == 0x3000 || c == 0xFEFF

/-- `String.prototype.trim`: drop leading and trailing JS whitespace. -/
def jsTrim (s : JSStr) : JSStr :=
  ((s.dropWhile isJSWhitespace).reverse.dropWhile isJSWhitespace).reverse

/-- `String.prototype.split('\n')` on code units. -/
def splitNl : JSStr → List JSStr
  | [] => [[]]
  | c :: rest =>
    let r := splitNl rest
    if c == 0xA then [] :: r
    else
      match r with
      | h :: t => (c :: h) :: t
      | [] => [[c]]

/-- A JavaScript number: `NaN`, an infinity (`neg` records the sign), or a
finite value represented exactly as a rational. -/
inductive JSNum where
  | nan : JSNum
  | inf (neg : Bool) : JSNum
  | val (q : ℚ) : JSNum
deriving DecidableEq

/-- Decimal digit test on a code unit. -/
def isDigit (c : Nat) : Bool := 0x30 ≤ c && c ≤ 0x39

/-- Take the leading run of decimal digits, returning their values and the rest. -/
def takeDigits : JSStr → List Nat × JSStr
  | [] => ([], [])
  | c :: rest =>
    if isDigit c then
      let (d, r) := takeDigits rest
      ((c - 0x30) :: d, r)
    else ([], c :: rest)

/-- Value of a list of digit values, most significant first. -/
def digitsVal (l : List Nat) : Nat := l.foldl (fun a d => a * 10 + d) 0

/-- Consume an optional leading sign; `true` means negative. -/
def parseSign : JSStr → Bool × JSStr
  | 0x2B :: r => (false, r)
  | 0x2D :: r => (true, r)
  | s => (false, s)

/-- Consume an optional exponent part (`e`/`E`, optional sign, digits); the
exponent is consumed only when at least one digit follows. -/
def parseExponent (s : JSStr) : ℤ × JSStr :=
  match s with
  | c :: rest =>
    if c == 0x65 || c == 0x45 then
      let (neg, r1) := parseSign rest
      let (ds, r2) := takeDigits r1
      if ds.isEmpty then (0, s)
      else ((if neg then -(digitsVal ds : ℤ) else (digitsVal ds : ℤ)), r2)
    else (0, s)
  | [] => (0, [])

/-- The body of `parseFloat` after whitespace skipping: longest valid prefix of
a decimal literal (`Infinity`, digits, optional fraction, optional exponent);
`NaN` when no prefix parses. -/
def parseFloatBody (s : JSStr) : JSNum :=
  let (neg, s1) := parseSign s
  if (lit "Infinity").isPrefixOf s1 then JSNum.inf neg
  else
    let (d1, r1) := takeDigits s1
    let (d2, r2) :=
      match r1 with
      | 0x2E :: r => takeDigits r
      | _ => ([], r1)
    if d1.isEmpty && d2.isEmpty then JSNum.nan
    else
      let (e, _) := parseExponent r2
      let mant : ℚ := (digitsVal d1 : ℚ) + (digitsVal d2 : ℚ) / ((10 : ℚ) ^ d2.length)
      let mag : ℚ := if 0 ≤ e then mant * (10 : ℚ) ^ e.toNat else mant / (10 : ℚ) ^ (-e).toNat
      JSNum.val (if neg then -mag else mag)

/-- JavaScript `parseFloat`. -/
def jsParseFloat (s : JSStr) : JSNum := parseFloatBody (s.dropWhile isJSWhitespace)

/-- Hexadecimal digit test on a code unit. -/
def isHexDigit (c : Nat) : Bool :=
  isDigit c || (0x41 ≤ c && c ≤ 0x46) || (0x61 ≤ c && c ≤ 0x66)

/-- Value of a hexadecimal digit code unit. -/
def hexVal (c : Nat) : Nat :=
  if isDigit c then c - 0x30 else if 0x41 ≤ c && c ≤ 0x46 then c - 0x37 else c - 0x57

/-- Decimal tail of `parseInt`. -/
def parseIntDec (neg : Bool) (s : JSStr) : JSNum :=
  let ds := s.takeWhile isDigit
  if ds.isEmpty then JSNum.nan
  else
    let v : ℤ := (ds.foldl (fun a c => a * 10 + (c - 0x30)) 0 : Nat)
    JSNum.val (if neg then -v else (v : ℚ))

/-- JavaScript `parseInt` with no radix argument: whitespace, optional sign,
then hexadecimal after a `0x`/`0X` prefix, else decimal digits; `NaN` when no
digit is consumed. -/
def jsParseInt (s : JSStr) : JSNum :=
  let s0 := s.dropWhile isJSWhitespace
  let (neg, s1) := parseSign s0
  match s1 with
  | 0x30 :: x :: rest =>
    if x == 0x78 || x == 0x58 then
      let ds := rest.takeWhile isHexDigit
      if ds.isEmpty then JSNum.nan
      else
        let v : ℤ := (ds.foldl (fun a c => a * 16 + hexVal c) 0 : Nat)
        JSNum.val (if neg then -v else (v : ℚ))
    else parseIntDec neg s1
  | _ => parseIntDec neg s1

/-- Multiplication by `1000` as in `parseFloat(...) * 1000`. -/
def jsMul1000 : JSNum → JSNum
  | JSNum.nan => JSNum.nan
  | JSNum.inf b => JSNum.inf b
  | JSNum.val q => JSNum.val (q * 1000)

/-- JavaScript `Math.round`: half-up (toward plus infinity) on finite values,
identity on `NaN` and infinities. -/
def jsRound : JSNum → JSNum
  | JSNum.nan => JSNum.nan
  | JSNum.inf b => JSNum.inf b
  | JSNum.val q => JSNum.val ((⌊q + 1 / 2⌋ : ℤ) : ℚ)

/-- The byte-order mark test of the sanitizer's first `replace`. -/
def isBOM (c : Nat) : Bool := c == 0xFEFF

/-- The control characters the sanitizer replaces with a space:
U+0000–U+0008, U+000B, U+000C, U+000E–U+001F and U+007F. -/
def isCtrlBad (c : Nat) : Bool :=
  c ≤ 0x8 || c == 0xB || c == 0xC || (0xE ≤ c && c ≤ 0x1F) || c == 0x7F

/-- UTF-16 surrogate code unit test, `[\uD800-\uDFFF]`. -/
def isSurrogate (c : Nat) : Bool := 0xD800 ≤ c && c ≤ 0xDFFF

/-- The text the sanitizer substitutes for each surrogate code unit; in the
source it is the three-character literal whose code units are
U+00EF, U+00BF, U+00BD. -/
def replacementText : JSStr := [0xEF, 0xBF, 0xBD]

/-- The sanitizer's three `replace` passes before normalization: strip BOMs,
replace the bad control characters with a space, substitute each surrogate
code unit with `replacementText`. -/
def preNormalize (s : JSStr) : JSStr :=
  ((s.filter (fun c => !isBOM c)).map (fun c => if isCtrlBad c then 0x20 else c)).flatMap
    (fun c => if isSurrogate c then replacementText else [c])

/-- `sanitizeString` from `src/convert.ts`: `undefined` passes through, the
three replace passes run, the result is NFC-normalized (`norm`, the external
platform function; its try/catch never fails in this model because `norm` is
total), and a result that is empty or whitespace-only becomes `undefined`. -/
def sanitizeString (norm : JSStr → JSStr) : Option JSStr → Option JSStr
  | none => none
  | some s =>
    let t := norm (preNormalize s)
    if t.all isJSWhitespace then none else some t

/-- `convertOutputToArray` from `src/convert.ts`: falsy or whitespace-only
input gives `undefined`; otherwise split on newlines, trim and sanitize each
line, and keep the truthy results. -/
def convertOutputToArray (norm : JSStr → JSStr) (output : Option JSStr) :
    Option (List JSStr) :=
  match output with
  | none => none
  | some s =>
    if s.isEmpty || (jsTrim s).isEmpty then none
    else
      some (((splitNl s).map (fun line => sanitizeString norm (some (jsTrim line)))).filterMap
        (fun o =>
          match o with
          | some l => if l.isEmpty then none else some l
          | none => none))

/-- `JUnitRetryAttempt` from `src/types/junit.ts`. -/
structure JUnitRetryAttempt where
  message : Option JSStr
  type : Option JSStr
  trace : Option JSStr
  systemOut : Option JSStr
  systemErr : Option JSStr
deriving DecidableEq

/-- `JUnitTestCase` from `src/types/junit.ts`. -/
structure JUnitTestCase where
  suite : JSStr
  classname : JSStr
  name : JSStr
  time : JSStr
  hasFailure : Bool
  failureTrace : Option JSStr
  failureMessage : Option JSStr
  failureType : Option JSStr
  hasError : Bool
  errorTrace : Option JSStr
  errorMessage : Option JSStr
  errorType : Option JSStr
  file : Option JSStr
  lineno : Option JSStr
  skipped : Option Bool
  flakyFailures : Option (List JUnitRetryAttempt)
  flakyErrors : Option (List JUnitRetryAttempt)
  rerunFailures : Option (List JUnitRetryAttempt)
  rerunErrors : Option (List JUnitRetryAttempt)
  systemOut : Option JSStr
  systemErr : Option JSStr
deriving DecidableEq

/-- The CTRF test statuses. -/
inductive Status where
  | passed
  | failed
  | skipped
  | pending
  | other
deriving DecidableEq

/-- A CTRF `RetryAttempt` as built by `convertRetryAttempts`. -/
structure RetryAttempt where
  attempt : Nat
  status : Status
  message : Option JSStr
  trace : Option JSStr
  stdout : Option (List JSStr)
  stderr : Option (List JSStr)
deriving DecidableEq

/-- `convertRetryAttempts` from `src/convert.ts`: one `RetryAttempt` per
entry, numbered from `startAttempt`, always `failed`, with sanitized
message/trace and stdout/stderr attached exactly when truthy. -/
def convertRetryAttempts (norm : JSStr → JSStr) :
    List JUnitRetryAttempt → Nat → List RetryAttempt
  | [], _ => []
  | a :: rest, startAttempt =>
    { attempt := startAttempt
      status := Status.failed
      message := sanitizeString norm a.message
      trace := sanitizeString norm a.trace
      stdout := convertOutputToArray norm a.systemOut
      stderr := convertOutputToArray norm a.systemErr } ::
      convertRetryAttempts norm rest (startAttempt + 1)

/-- Result record of `processTestWithRetries`. -/
structure ProcessedRetries where
  retryAttempts : List RetryAttempt
  retryCount : Nat
  finalStatus : Status
  isFlaky : Bool
deriving DecidableEq

/-- `processTestWithRetries` from `src/convert.ts`, with its exact sequencing:
flaky failures then flaky errors consume attempt numbers from 1; when neither
flaky list has entries the counter resets to 2 before the rerun lists; the
final status gives flaky priority, then reruns, then the base record's flags. -/
def processTestWithRetries (norm : JSStr → JSStr) (testCase : JUnitTestCase) :
    ProcessedRetries :=
  let attempts0 : List RetryAttempt := []
  let n0 : Nat := 1
  let ff := testCase.flakyFailures.getD []
  let attempts1 := if ff.isEmpty then attempts0 else attempts0 ++ convertRetryAttempts norm ff n0
  let n1 := if ff.isEmpty then n0 else n0 + ff.length
  let fe := testCase.flakyErrors.getD []
  let attempts2 := if fe.isEmpty then attempts1 else attempts1 ++ convertRetryAttempts norm fe n1
  let n2 := if fe.isEmpty then n1 else n1 + fe.length
  let hasFlaky := !ff.isEmpty || !fe.isEmpty
  let n3 := if hasFlaky then n2 else 2
  let rf := testCase.rerunFailures.getD []
  let attempts3 := if rf.isEmpty then attempts2 else attempts2 ++ convertRetryAttempts norm rf n3
  let n4 := if rf.isEmpty then n3 else n3 + rf.length
  let re := testCase.rerunErrors.getD []
  let attempts4 := if re.isEmpty then attempts3 else attempts3 ++ convertRetryAttempts norm re n4
  let hasRerun := !rf.isEmpty || !re.isEmpty
  let finalStatus :=
    if hasFlaky then Status.passed
    else if hasRerun then
      if testCase.hasError then Status.failed
      else if testCase.hasFailure then Status.failed
      else Status.failed
    else if testCase.hasFailure || testCase.hasError then Status.failed
    else if testCase.skipped.getD false then Status.skipped
    else Status.passed
  { retryAttempts := attempts4
    retryCount := attempts4.length
    finalStatus := finalStatus
    isFlaky := hasFlaky }

/-- JavaScript `a || b` on a `string | undefined` left operand: `undefined`
and the empty string are falsy. -/
def jsOrOpt (a b : Option JSStr) : Option JSStr :=
  match a with
  | some s => if s.isEmpty then b else some s
  | none => b

/-- JavaScript `x || undefined` on a `string | undefined` operand. -/
def jsOrUndef (o : Option JSStr) : Option JSStr :=
  match o with
  | some s => if s.isEmpty then none else some s
  | none => none

/-- JavaScript `s || d` on a plain string left operand. -/
def jsOrStr (s d : JSStr) : JSStr := if s.isEmpty then d else s

/-- Template-literal coercion of a `string | undefined` value: `undefined`
prints as the literal text `undefined`. -/
def coerceUndefined (o : Option JSStr) : JSStr := o.getD (lit "undefined")

/-- A CTRF `Test` as built by `convertToCTRFTest`; fields the source attaches
only conditionally are `Option`s. -/
structure CTRFTest where
  name : JSStr
  status : Status
  duration : JSNum
  filePath : Option JSStr
  line : Option JSNum
  message : Option JSStr
  trace : Option JSStr
  suite : Option JSStr
  retries : Option Nat
  retryAttempts : Option (List RetryAttempt)
  flaky : Option Bool
  stdout : Option (List JSStr)
  stderr : Option (List JSStr)
deriving DecidableEq

/-- `convertToCTRFTest` from `src/convert.ts`: reconcile retries, compute the
duration from `time` (falling back to the literal `"0"` only when `time` is
falsy), build the name (with the template literal `"<suite>: <name>"` when
`useSuiteName`), take message/trace from failure falling back to error by
truthiness, and attach retries, flaky and output fields conditionally. -/
def convertToCTRFTest (norm : JSStr → JSStr) (testCase : JUnitTestCase)
    (useSuiteName : Bool) : CTRFTest :=
  let testInfo := processTestWithRetries norm testCase
  let durationMs := jsRound (jsMul1000 (jsParseFloat (jsOrStr testCase.time (lit "0"))))
  let testName : Option JSStr :=
    if useSuiteName then
      some (coerceUndefined (sanitizeString norm (some testCase.suite)) ++ lit ": " ++
        coerceUndefined (sanitizeString norm (some testCase.name)))
    else sanitizeString norm (some testCase.name)
  let line : Option JSNum :=
    match testCase.lineno with
    | some s => if s.isEmpty then none else some (jsParseInt s)
    | none => none
  { name :=
      match testName with
      | some s => if s.isEmpty then lit "Unnamed Test" else s
      | none => lit "Unnamed Test"
    status := testInfo.finalStatus
    duration := durationMs
    filePath := testCase.file
    line := line
    message := jsOrUndef (sanitizeString norm (jsOrOpt testCase.failureMessage testCase.errorMessage))
    trace := jsOrUndef (sanitizeString norm (jsOrOpt testCase.failureTrace testCase.errorTrace))
    suite := sanitizeString norm (some testCase.suite)
    retries := if testInfo.retryCount > 0 then some testInfo.retryCount else none
    retryAttempts := if testInfo.retryCount > 0 then some testInfo.retryAttempts else none
    flaky := if testInfo.isFlaky then some true else none
    stdout := convertOutputToArray norm testCase.systemOut
    stderr := convertOutputToArray norm testCase.systemErr }

/-- CTRF tool metadata. -/
structure Tool where
  name : JSStr
deriving DecidableEq

/-- CTRF summary; `flaky` is `some` exactly when the source spreads the key in. -/
structure Summary where
  tests : Nat
  passed : Nat
  failed : Nat
  skipped : Nat
  pending : Nat
  other : Nat
  start : Nat
  stop : Nat
  flaky : Option Nat
deriving DecidableEq

/-- The `results` block of a CTRF report. -/
structure CTRFResults where
  tool : Tool
  summary : Summary
  tests : List CTRFTest
  environment : Option (List (JSStr × JSStr))
deriving DecidableEq

/-- A CTRF report. -/
structure Report where
  reportFormat : JSStr
  specVersion : JSStr
  generatedBy : JSStr
  timestamp : JSStr
  results : CTRFResults
deriving DecidableEq

/-- `createCTRFReport` from `src/convert.ts`.  `timestamp` stands for the
external `new Date().toISOString()` call; `envProps` for the record built by
the caller.  The summary counts each status by filtering the converted list,
and the `flaky` key is spread in only when its count is positive. -/
def createCTRFReport (norm : JSStr → JSStr) (testCases : List JUnitTestCase)
    (toolName : Option JSStr) (envProps : Option (List (JSStr × JSStr)))
    (useSuiteName : Option Bool) (timestamp : JSStr) : Report :=
  let ctrfTests := testCases.map (fun tc => convertToCTRFTest norm tc (useSuiteName == some true))
  let passed := (ctrfTests.filter (fun t => decide (t.status = Status.passed))).length
  let failed := (ctrfTests.filter (fun t => decide (t.status = Status.failed))).length
  let skipped := (ctrfTests.filter (fun t => decide (t.status = Status.skipped))).length
  let pending := (ctrfTests.filter (fun t => decide (t.status = Status.pending))).length
  let other := (ctrfTests.filter (fun t => decide (t.status = Status.other))).length
  let flaky := (ctrfTests.filter (fun t => decide (t.flaky = some true))).length
  let summary : Summary :=
    { tests := ctrfTests.length
      passed := passed
      failed := failed
      skipped := skipped
      pending := pending
      other := other
      start := 0
      stop := 0
      flaky := if flaky > 0 then some flaky else none }
  let tool : Tool :=
    { name :=
        match toolName with
        | some s => if s.isEmpty then lit "junit-to-ctrf" else s
        | none => lit "junit-to-ctrf" }
  let environment : Option (List (JSStr × JSStr)) :=
    match envProps with
    | some l => if l.isEmpty then none else some l
    | none => none
  { reportFormat := lit "CTRF"
    specVersion := lit "0.0.0"
    generatedBy := lit "junit-to-ctrf"
    timestamp := timestamp
    results :=
      { tool := tool
        summary := summary
        tests := ctrfTests
        environment := environment } }

/-- Truthiness of an optional list field guard such as
`testCase.flakyFailures && testCase.flakyFailures.length > 0`. -/
def hasItems (o : Option (List JUnitRetryAttempt)) : Bool := !(o.getD []).isEmpty

/-- Final status as the spec words it: flaky wins, then reruns collapse to
`failed` regardless of the base flags, then the base record's failure/error
flags, then `skipped`, else `passed`. -/
def specFinalStatus (tc : JUnitTestCase) : Status :=
  if hasItems tc.flakyFailures || hasItems tc.flakyErrors then Status.passed
  else if hasItems tc.rerunFailures || hasItems tc.rerunErrors then Status.failed
  else if tc.hasFailure || tc.hasError then Status.failed
  else if tc.skipped.getD false then Status.skipped
  else Status.passed

/-- The attempt number at which the rerun lists start: the running counter
after the flaky lists when one of them has entries, else the reset value 2. -/
def rerunStart (tc : JUnitTestCase) : Nat :=
  if hasItems tc.flakyFailures || hasItems tc.flakyErrors then
    1 + (tc.flakyFailures.getD []).length + (tc.flakyErrors.getD []).length
  else 2

/-- Normal form of the retry-attempt list `processTestWithRetries` builds:
the four lists in order, each converted from its starting attempt number. -/
def retryListOf (norm : JSStr → JSStr) (tc : JUnitTestCase) : List RetryAttempt :=
  convertRetryAttempts norm (tc.flakyFailures.getD []) 1 ++
    convertRetryAttempts norm (tc.flakyErrors.getD []) (1 + (tc.flakyFailures.getD []).length) ++
    convertRetryAttempts norm (tc.rerunFailures.getD []) (rerunStart tc) ++
    convertRetryAttempts norm (tc.rerunErrors.getD []) (rerunStart tc + (tc.rerunFailures.getD []).length)

/-- Characters the sanitizer's replace passes can no longer produce: not a
BOM, not a replaced control character, not a surrogate. -/
def goodChar (c : Nat) : Bool := !isBOM c && !isCtrlBad c && !isSurrogate c

/-- A duration that is a non-negative integer, as the spec's invariant asks. -/
def isNonnegIntDuration (d : JSNum) : Prop := ∃ n : ℕ, d = JSNum.val (n : ℚ)

/-- A retry record with every optional field absent. -/
def blankRetry : JUnitRetryAttempt :=
  { message := none, type := none, trace := none, systemOut := none, systemErr := none }

/-- A passing test case with every optional field absent. -/
def baseCase : JUnitTestCase :=
  { suite := lit "Suite1"
    classname := lit "com.example.MyTest"
    name := lit "test1"
    time := lit "1"
    hasFailure := false
    failureTrace := none
    failureMessage := none
    failureType := none
    hasError := false
    errorTrace := none
    errorMessage := none
    errorType := none
    file := none
    lineno := none
    skipped := none
    flakyFailures := none
    flakyErrors := none
    rerunFailures := none
    rerunErrors := none
    systemOut := none
    systemErr := none }

/-- A test case whose only retry information is one rerun failure. -/
def rerunOnlyCase : JUnitTestCase := { baseCase with rerunFailures := some [blankRetry] }

/-- A test case with an empty suite name, for the suite-qualified-name path. -/
def emptySuiteCase : JUnitTestCase := { baseCase with suite := [] }

/-- A test case whose `time` field does not parse as a number. -/
def timeAbcCase : JUnitTestCase := { baseCase with time := lit "abc" }

/-- A test case whose `time` field is the empty string (falsy, so the code
falls back to the literal `"0"`). -/
def timeEmptyCase : JUnitTestCase := { baseCase with time := [] }

/-- A test case whose `time` field is a negative number. -/
def timeNegCase : JUnitTestCase := { baseCase with time := lit "-5" }

/-- A test case where `failureMessage` is present but empty and
`errorMessage` is non-empty. -/
def bothMessagesCase : JUnitTestCase :=
  { baseCase with failureMessage := some [], errorMessage := some (lit "boom") }

/-- A flaky test case: one flaky failure, no other retry lists. -/
def flakyCase : JUnitTestCase := { baseCase with flakyFailures := some [blankRetry] }

/-- Rounding helper: the floor of an integer plus one half is that integer. -/
theorem floor_add_half (n : ℤ) : ⌊(n : ℚ) + 1 / 2⌋ = n := by
  rw [add_comm, Int.floor_add_int]
  norm_num [Int.floor_eq_iff]

/-- `convertRetryAttempts` preserves the list length. -/
theorem convertRetryAttempts_length (norm : JSStr → JSStr) :
    ∀ (l : List JUnitRetryAttempt) (n : Nat), (convertRetryAttempts norm l n).length = l.length
  | [], _ => rfl
  | _ :: rest, n => by
    simp [convertRetryAttempts, convertRetryAttempts_length norm rest (n + 1)]

/-- The attempt numbers `convertRetryAttempts` assigns are the consecutive
run starting at its starting attempt number. -/
theorem convertRetryAttempts_map_attempt (norm : JSStr → JSStr) :
    ∀ (l : List JUnitRetryAttempt) (n : Nat),
      (convertRetryAttempts norm l n).map RetryAttempt.attempt = List.range' n l.length
  | [], _ => rfl
  | _ :: rest, n => by
    simp [convertRetryAttempts, List.range'_succ,
      convertRetryAttempts_map_attempt norm rest (n + 1)]

/-- Four consecutive `range'` blocks concatenate to one. -/
theorem range'_four_chain (s a b c d : Nat) :
    List.range' s a ++ List.range' (s + a) b ++ List.range' (s + a + b) c ++
      List.range' (s + a + b + c) d = List.range' s (a + b + c + d) := by
  rw [List.range'_append_1, show s + a + b = s + (b + a) by omega, List.range'_append_1,
    show s + (b + a) + c = s + (c + (b + a)) by omega, List.range'_append_1]
  congr 1
  omega

/-- The reconciler's retry count is the length of its retry-attempt list. -/
theorem retryCount_eq_length (norm : JSStr → JSStr) (tc : JUnitTestCase) :
    (processTestWithRetries norm tc).retryCount =
      (processTestWithRetries norm tc).retryAttempts.length := rfl

/-- The reconciler's flaky flag is the non-emptiness of the flaky lists. -/
theorem isFlaky_eq (norm : JSStr → JSStr) (tc : JUnitTestCase) :
    (processTestWithRetries norm tc).isFlaky =
      (hasItems tc.flakyFailures || hasItems tc.flakyErrors) := rfl

/-- The retry-attempt list the reconciler builds, in normal form. -/
theorem retryAttempts_eq (norm : JSStr → JSStr) (tc : JUnitTestCase) :
    (processTestWithRetries norm tc).retryAttempts = retryListOf norm tc := by
  unfold processTestWithRetries retryListOf rerunStart hasItems
  rcases hff : tc.flakyFailures.getD [] with _ | ⟨a, ff⟩ <;>
    rcases hfe : tc.flakyErrors.getD [] with _ | ⟨b, fe⟩ <;>
      rcases hrf : tc.rerunFailures.getD [] with _ | ⟨c, rf⟩ <;>
        rcases hre : tc.rerunErrors.getD [] with _ | ⟨d, re⟩ <;>
          simp [convertRetryAttempts, List.append_assoc]

/-- The reconciler's final status equals the spec-side status function. -/
theorem finalStatus_eq_spec (norm : JSStr → JSStr) (tc : JUnitTestCase) :
    (processTestWithRetries norm tc).finalStatus = specFinalStatus tc := by
  obtain ⟨su, cl, na, ti, hF, t1, m1, y1, hE, t2, m2, y2, fi, ln, sk, f1, f2, r1, r2, o1, o2⟩ := tc
  cases hE <;> cases hF <;> rfl

/-- A flaky reconciliation reports status `passed`. -/
theorem finalStatus_of_isFlaky (norm : JSStr → JSStr) (tc : JUnitTestCase)
    (h : (processTestWithRetries norm tc).isFlaky = true) :
    (processTestWithRetries norm tc).finalStatus = Status.passed := by
  rw [finalStatus_eq_spec]
  rw [isFlaky_eq] at h
  unfold specFinalStatus
  rw [if_pos h]

/-- The reconciler's final status is one of `passed`, `failed`, `skipped`. -/
theorem finalStatus_cases (norm : JSStr → JSStr) (tc : JUnitTestCase) :
    (processTestWithRetries norm tc).finalStatus = Status.passed ∨
      (processTestWithRetries norm tc).finalStatus = Status.failed ∨
      (processTestWithRetries norm tc).finalStatus = Status.skipped := by
  rw [finalStatus_eq_spec]
  unfold specFinalStatus
  split_ifs <;> simp


/-- A list field whose guard is falsy holds no entries. -/
theorem hasItems_false_nil {o : Option (List JUnitRetryAttempt)}
    (h : hasItems o = false) : o.getD [] = [] := by
  unfold hasItems at h
  simpa using h

/-- C1: for every RawTestCase the reconciler's final status follows the
specified priority: flaky wins with `passed` even when rerun lists are also
non-empty; otherwise any rerun entries force `failed` regardless of the base
flags; otherwise the base failure/error flags give `failed`, then `skipped`,
else `passed`. -/
theorem finalStatus_follows_priority (norm : JSStr → JSStr) (tc : JUnitTestCase) :
    (processTestWithRetries norm tc).finalStatus = specFinalStatus tc :=
  finalStatus_eq_spec norm tc

/-- C2 (amended): the attempt numbers in one test's retry history are the
consecutive run `start, start+1, ...` where `start` is 1 when a flaky list
has entries and 2 otherwise (rerun-only histories start at 2, not 1). -/
theorem retry_attempt_numbers (norm : JSStr → JSStr) (tc : JUnitTestCase) :
    (processTestWithRetries norm tc).retryAttempts.map RetryAttempt.attempt =
      List.range' (if (processTestWithRetries norm tc).isFlaky then 1 else 2)
        (processTestWithRetries norm tc).retryCount := by
  rw [retryCount_eq_length, retryAttempts_eq, isFlaky_eq]
  unfold retryListOf rerunStart
  by_cases h : (hasItems tc.flakyFailures || hasItems tc.flakyErrors) = true
  · rw [if_pos h, if_pos h]
    simp only [List.map_append, convertRetryAttempts_map_attempt,
      convertRetryAttempts_length, List.length_append]
    rw [range'_four_chain]
  · rw [if_neg h, if_neg h]
    rw [Bool.or_eq_true] at h
    push_neg at h
    have h1 : hasItems tc.flakyFailures = false := Bool.eq_false_iff.mpr h.1
    have h2 : hasItems tc.flakyErrors = false := Bool.eq_false_iff.mpr h.2
    rw [hasItems_false_nil h1, hasItems_false_nil h2]
    simp only [convertRetryAttempts, List.nil_append, List.map_append,
      convertRetryAttempts_map_attempt, convertRetryAttempts_length,
      List.length_append]
    rw [List.range'_append_1]
    congr 1
    omega

/-- C2 (counterexample): a test case whose only retry record is one rerun
failure produces the attempt-number list `[2]`, so the history does not start
at attempt number 1 as the claim states. -/
theorem retry_attempt_numbers_cex :
    (processTestWithRetries id rerunOnlyCase).retryAttempts.map RetryAttempt.attempt = [2] ∧
      ((processTestWithRetries id rerunOnlyCase).retryAttempts.map RetryAttempt.attempt).head? ≠
        some 1 := by
  exact ⟨by decide, by decide⟩

/-- C3 (code bug): with `useSuiteName` and a suite that sanitizes to
`undefined` (here the empty string), the template literal puts the literal
text `undefined` into the produced name instead of falling back to the
unqualified test name. -/
theorem name_literal_undefined :
    (convertToCTRFTest id emptySuiteCase true).name = lit "undefined: test1" ∧
      (lit "undefined").isPrefixOf ((convertToCTRFTest id emptySuiteCase true).name) = true :=
  ⟨by decide, by decide⟩

/-- C4 (code bug): an input consisting of one U+0001 control character passes
the `trim()` guard, every line is dropped after sanitization, and the function
returns an empty array rather than `undefined`. -/
theorem output_control_noise_empty_array :
    convertOutputToArray id (some [0x1]) = some [] ∧
      convertOutputToArray id (some [0x1]) ≠ none :=
  ⟨by decide, by decide⟩

/-- C5 (code bug): a non-empty unparsable `time` such as `"abc"` is truthy, so
the `|| '0'` fallback does not apply and the duration becomes `NaN`, not 0;
only a falsy (absent or empty) `time` yields duration 0. -/
theorem duration_unparsable_nan :
    (convertToCTRFTest id timeAbcCase false).duration = JSNum.nan ∧
      (convertToCTRFTest id timeEmptyCase false).duration = JSNum.val 0 := by
  constructor
  · decide
  · show jsRound (jsMul1000 (jsParseFloat (jsOrStr timeEmptyCase.time (lit "0")))) = JSNum.val 0
    rw [show jsOrStr timeEmptyCase.time (lit "0") = [48] from by decide]
    rw [show jsParseFloat [48] = JSNum.val 0 from by
      simp +decide [jsParseFloat, parseFloatBody, takeDigits, parseSign, parseExponent,
        digitsVal, isDigit, isJSWhitespace, List.dropWhile, List.isPrefixOf, lit]]
    simp only [jsRound, jsMul1000]
    rw [show ((0 : ℚ) * 1000 + 1 / 2) = ((0 : ℤ) : ℚ) + 1 / 2 by norm_num, floor_add_half]
    norm_num

/-- C6 (counterexample): a `time` of `"-5"` yields duration -5000, which is
not a non-negative integer. -/
theorem duration_negative_cex :
    (convertToCTRFTest id timeNegCase false).duration = JSNum.val (-5000) ∧
      ¬ isNonnegIntDuration ((convertToCTRFTest id timeNegCase false).duration) := by
  have hd : (convertToCTRFTest id timeNegCase false).duration = JSNum.val (-5000) := by
    show jsRound (jsMul1000 (jsParseFloat (jsOrStr timeNegCase.time (lit "0")))) = _
    rw [show jsOrStr timeNegCase.time (lit "0") = [45, 53] from by decide]
    rw [show jsParseFloat [45, 53] = JSNum.val (-5) from by
      simp +decide [jsParseFloat, parseFloatBody, takeDigits, parseSign, parseExponent,
        digitsVal, isDigit, isJSWhitespace, List.dropWhile, List.isPrefixOf, lit]]
    simp only [jsRound, jsMul1000]
    rw [show ((-5 : ℚ) * 1000 + 1 / 2) = ((-5000 : ℤ) : ℚ) + 1 / 2 by norm_num, floor_add_half]
    norm_num
  refine ⟨hd, ?_⟩
  rw [hd]
  rintro ⟨n, hn⟩
  have h5 : ((-5000 : ℚ)) = (n : ℚ) := by injection hn
  have hpos : (0 : ℚ) ≤ (n : ℚ) := Nat.cast_nonneg n
  rw [← h5] at hpos
  linarith

/-- C6 (amended): whenever `time` is empty (absent) or parses to a finite
non-negative value, the produced duration is a non-negative integer. -/
theorem duration_nonneg_of_time (norm : JSStr → JSStr) (tc : JUnitTestCase) (b : Bool)
    (h : tc.time = [] ∨ ∃ q : ℚ, 0 ≤ q ∧ jsParseFloat tc.time = JSNum.val q) :
    isNonnegIntDuration ((convertToCTRFTest norm tc b).duration) := by
  have hd : (convertToCTRFTest norm tc b).duration =
      jsRound (jsMul1000 (jsParseFloat (jsOrStr tc.time (lit "0")))) := rfl
  rcases h with h0 | ⟨q, hq, hp⟩
  · rw [hd, h0]
    rw [show jsOrStr [] (lit "0") = [48] from by decide]
    rw [show jsParseFloat [48] = JSNum.val 0 from by
      simp +decide [jsParseFloat, parseFloatBody, takeDigits, parseSign, parseExponent,
        digitsVal, isDigit, isJSWhitespace, List.dropWhile, List.isPrefixOf, lit]]
    refine ⟨0, ?_⟩
    simp only [jsRound, jsMul1000]
    rw [show ((0 : ℚ) * 1000 + 1 / 2) = ((0 : ℤ) : ℚ) + 1 / 2 by norm_num, floor_add_half]
    norm_num
  · by_cases he : tc.time.isEmpty
    · rw [List.isEmpty_iff] at he
      rw [he] at hp
      rw [show jsParseFloat [] = JSNum.nan from by decide] at hp
      cases hp
    · have hor : jsOrStr tc.time (lit "0") = tc.time := by
        unfold jsOrStr
        rw [if_neg (by simp [he])]
      rw [hd, hor, hp]
      simp only [jsRound, jsMul1000]
      have hnn : (0 : ℤ) ≤ ⌊q * 1000 + 1 / 2⌋ := by
        rw [Int.le_floor]
        push_cast
        linarith
      refine ⟨(⌊q * 1000 + 1 / 2⌋).toNat, ?_⟩
      congr 1
      rw [← Int.cast_natCast, Int.toNat_of_nonneg hnn]

/-- C6 (witness): the amended duration theorem at the empty-time test case. -/
theorem duration_nonneg_of_time_witness :
    isNonnegIntDuration ((convertToCTRFTest id timeEmptyCase false).duration) :=
  duration_nonneg_of_time id timeEmptyCase false (Or.inl rfl)

/-- Every character of the surrogate replacement text is good. -/
theorem mem_replacementText_good {c : Nat} (h : c ∈ replacementText) : goodChar c = true := by
  simp only [replacementText, List.mem_cons, List.mem_singleton, List.not_mem_nil, or_false] at h
  rcases h with h | h | h <;> subst h <;> decide

/-- The replace passes leave only good characters. -/
theorem preNormalize_all_good (s : JSStr) : (preNormalize s).all goodChar = true := by
  rw [List.all_eq_true]
  intro c hc
  unfold preNormalize at hc
  rw [List.mem_flatMap] at hc
  obtain ⟨b, hb, hcb⟩ := hc
  by_cases hs : isSurrogate b = true
  · rw [if_pos hs] at hcb
    exact mem_replacementText_good hcb
  · rw [if_neg hs] at hcb
    rw [List.mem_singleton] at hcb
    subst hcb
    rw [List.mem_map] at hb
    obtain ⟨a, ha, hab⟩ := hb
    rw [List.mem_filter] at ha
    obtain ⟨-, ha2⟩ := ha
    by_cases hctrl : isCtrlBad a = true
    · rw [if_pos hctrl] at hab
      subst hab
      decide
    · rw [if_neg hctrl] at hab
      subst hab
      simp only [goodChar, Bool.and_eq_true, Bool.not_eq_eq_eq_not, Bool.not_true]
      refine ⟨⟨?_, ?_⟩, ?_⟩
      · simpa using ha2
      · simpa using hctrl
      · simpa using hs

/-- The surrogate pass is the identity on surrogate-free text. -/
theorem flatMap_id_of_no_surrogate :
    ∀ (l : JSStr), (∀ c ∈ l, isSurrogate c = false) →
      (l.flatMap (fun c => if isSurrogate c then replacementText else [c])) = l
  | [], _ => rfl
  | a :: t, h => by
    rw [List.flatMap_cons]
    rw [if_neg (by simp [h a (List.mem_cons_self a t)])]
    simp only [List.singleton_append, List.cons.injEq, true_and]
    exact flatMap_id_of_no_surrogate t (fun c hc => h c (List.mem_cons_of_mem a hc))

/-- The replace passes are the identity on text of good characters. -/
theorem preNormalize_of_good (t : JSStr) (h : t.all goodChar = true) : preNormalize t = t := by
  rw [List.all_eq_true] at h
  unfold preNormalize
  have hcomp : ∀ a ∈ t, isBOM a = false ∧ isCtrlBad a = false ∧ isSurrogate a = false := by
    intro a ha
    have := h a ha
    simp only [goodChar, Bool.and_eq_true, Bool.not_eq_eq_eq_not, Bool.not_true] at this
    exact ⟨this.1.1, this.1.2, this.2⟩
  have hf : t.filter (fun c => !isBOM c) = t := by
    rw [List.filter_eq_self]
    intro a ha
    simp [(hcomp a ha).1]
  rw [hf]
  have hm : t.map (fun c => if isCtrlBad c then 0x20 else c) = t := by
    have := List.map_congr_left (l := t) (f := fun c => if isCtrlBad c then 0x20 else c)
      (g := id) (fun a ha => by simp [(hcomp a ha).2.1])
    rw [this, List.map_id]
  rw [hm]
  exact flatMap_id_of_no_surrogate t (fun c hc => (hcomp c hc).2.2)

/-- C7: `sanitizeString` is total (a function in this model, and its
normalize call is guarded) and idempotent, and maps `undefined` to
`undefined`; `norm` is assumed idempotent and good-character-preserving,
both true of NFC normalization. -/
theorem sanitizeString_idempotent (norm : JSStr → JSStr)
    (hIdem : ∀ t : JSStr, norm (norm t) = norm t)
    (hGood : ∀ t : JSStr, t.all goodChar = true → (norm t).all goodChar = true)
    (s : Option JSStr) :
    sanitizeString norm (sanitizeString norm s) = sanitizeString norm s ∧
      sanitizeString norm none = none := by
  refine ⟨?_, rfl⟩
  cases s with
  | none => rfl
  | some s =>
    set t := norm (preNormalize s) with ht
    have hgood : t.all goodChar = true := hGood _ (preNormalize_all_good s)
    have key : norm (preNormalize t) = t := by
      rw [preNormalize_of_good t hgood]
      exact hIdem (preNormalize s)
    have hs1 : sanitizeString norm (some s) = if t.all isJSWhitespace then none else some t := rfl
    rw [hs1]
    by_cases hw : t.all isJSWhitespace = true
    · rw [if_pos hw]
      rfl
    · rw [if_neg hw]
      have hs2 : sanitizeString norm (some t) =
          if (norm (preNormalize t)).all isJSWhitespace then none else some (norm (preNormalize t)) := rfl
      rw [hs2, key, if_neg hw]

/-- C7 (witness): idempotence evaluated at `norm = id` on a concrete string. -/
theorem sanitizeString_idempotent_witness :
    sanitizeString id (sanitizeString id (some (lit "a"))) = sanitizeString id (some (lit "a")) ∧
      sanitizeString id none = none :=
  sanitizeString_idempotent id (fun _ => rfl) (fun _ h => h) (some (lit "a"))

/-- The trailing `|| undefined` never changes a sanitizer result. -/
theorem jsOrUndef_sanitizeString (norm : JSStr → JSStr) (s : Option JSStr) :
    jsOrUndef (sanitizeString norm s) = sanitizeString norm s := by
  cases s with
  | none => rfl
  | some s =>
    have hs : sanitizeString norm (some s) =
        if (norm (preNormalize s)).all isJSWhitespace then none
        else some (norm (preNormalize s)) := rfl
    rw [hs]
    by_cases hw : (norm (preNormalize s)).all isJSWhitespace = true
    · simp [hw, jsOrUndef]
    · have hne : (norm (preNormalize s)).isEmpty = false := by
        cases hn : norm (preNormalize s) with
        | nil => exact absurd (by rw [hn]; rfl) hw
        | cons a l => rfl
      simp [hw, jsOrUndef, hne]

/-- C9: with a present-but-empty `failureMessage` and a present
`errorMessage`, the produced message is the sanitized `errorMessage` — the
fallback is by truthiness, not by presence. -/
theorem message_error_fallback (norm : JSStr → JSStr) (tc : JUnitTestCase) (b : Bool) (e : JSStr)
    (h1 : tc.failureMessage = some []) (h2 : tc.errorMessage = some e) :
    (convertToCTRFTest norm tc b).message = sanitizeString norm (some e) := by
  have hm : (convertToCTRFTest norm tc b).message =
      jsOrUndef (sanitizeString norm (jsOrOpt tc.failureMessage tc.errorMessage)) := rfl
  rw [hm, h1, h2]
  have hopt : jsOrOpt (some ([] : JSStr)) (some e) = some e := rfl
  rw [hopt, jsOrUndef_sanitizeString]

/-- C9 (witness): the truthiness fallback at a concrete test case. -/
theorem message_error_fallback_witness :
    (convertToCTRFTest id bothMessagesCase false).message = sanitizeString id (some (lit "boom")) :=
  message_error_fallback id bothMessagesCase false (lit "boom") rfl rfl

/-- The report's test list is the converted input list. -/
theorem report_tests_eq (norm : JSStr → JSStr) (tcs : List JUnitTestCase)
    (tn : Option JSStr) (ep : Option (List (JSStr × JSStr))) (us : Option Bool) (ts : JSStr) :
    (createCTRFReport norm tcs tn ep us ts).results.tests =
      tcs.map (fun tc => convertToCTRFTest norm tc (us == some true)) := rfl

/-- Summary `tests` in terms of the converted list. -/
theorem report_summary_tests (norm : JSStr → JSStr) (tcs : List JUnitTestCase)
    (tn : Option JSStr) (ep : Option (List (JSStr × JSStr))) (us : Option Bool) (ts : JSStr) :
    (createCTRFReport norm tcs tn ep us ts).results.summary.tests =
      (tcs.map (fun tc => convertToCTRFTest norm tc (us == some true))).length := rfl

/-- Summary `passed` in terms of the converted list. -/
theorem report_summary_passed (norm : JSStr → JSStr) (tcs : List JUnitTestCase)
    (tn : Option JSStr) (ep : Option (List (JSStr × JSStr))) (us : Option Bool) (ts : JSStr) :
    (createCTRFReport norm tcs tn ep us ts).results.summary.passed =
      ((tcs.map (fun tc => convertToCTRFTest norm tc (us == some true))).filter
        (fun t => decide (t.status = Status.passed))).length := rfl

/-- Summary `failed` in terms of the converted list. -/
theorem report_summary_failed (norm : JSStr → JSStr) (tcs : List JUnitTestCase)
    (tn : Option JSStr) (ep : Option (List (JSStr × JSStr))) (us : Option Bool) (ts : JSStr) :
    (createCTRFReport norm tcs tn ep us ts).results.summary.failed =
      ((tcs.map (fun tc => convertToCTRFTest norm tc (us == some true))).filter
        (fun t => decide (t.status = Status.failed))).length := rfl

/-- Summary `skipped` in terms of the converted list. -/
theorem report_summary_skipped (norm : JSStr → JSStr) (tcs : List JUnitTestCase)
    (tn : Option JSStr) (ep : Option (List (JSStr × JSStr))) (us : Option Bool) (ts : JSStr) :
    (createCTRFReport norm tcs tn ep us ts).results.summary.skipped =
      ((tcs.map (fun tc => convertToCTRFTest norm tc (us == some true))).filter
        (fun t => decide (t.status = Status.skipped))).length := rfl

/-- Summary `pending` in terms of the converted list. -/
theorem report_summary_pending (norm : JSStr → JSStr) (tcs : List JUnitTestCase)
    (tn : Option JSStr) (ep : Option (List (JSStr × JSStr))) (us : Option Bool) (ts : JSStr) :
    (createCTRFReport norm tcs tn ep us ts).results.summary.pending =
      ((tcs.map (fun tc => convertToCTRFTest norm tc (us == some true))).filter
        (fun t => decide (t.status = Status.pending))).length := rfl

/-- Summary `other` in terms of the converted list. -/
theorem report_summary_other (norm : JSStr → JSStr) (tcs : List JUnitTestCase)
    (tn : Option JSStr) (ep : Option (List (JSStr × JSStr))) (us : Option Bool) (ts : JSStr) :
    (createCTRFReport norm tcs tn ep us ts).results.summary.other =
      ((tcs.map (fun tc => convertToCTRFTest norm tc (us == some true))).filter
        (fun t => decide (t.status = Status.other))).length := rfl

/-- Summary `flaky` in terms of the converted list. -/
theorem report_summary_flaky (norm : JSStr → JSStr) (tcs : List JUnitTestCase)
    (tn : Option JSStr) (ep : Option (List (JSStr × JSStr))) (us : Option Bool) (ts : JSStr) :
    (createCTRFReport norm tcs tn ep us ts).results.summary.flaky =
      (if ((tcs.map (fun tc => convertToCTRFTest norm tc (us == some true))).filter
          (fun t => decide (t.flaky = some true))).length > 0 then
        some ((tcs.map (fun tc => convertToCTRFTest norm tc (us == some true))).filter
          (fun t => decide (t.flaky = some true))).length
      else none) := rfl

/-- The five status buckets partition any list of tests. -/
theorem status_filter_sum (l : List CTRFTest) :
    (l.filter (fun t => decide (t.status = Status.passed))).length +
      (l.filter (fun t => decide (t.status = Status.failed))).length +
      (l.filter (fun t => decide (t.status = Status.skipped))).length +
      (l.filter (fun t => decide (t.status = Status.pending))).length +
      (l.filter (fun t => decide (t.status = Status.other))).length = l.length := by
  induction l with
  | nil => rfl
  | cons t rest ih =>
    cases h : t.status <;> simp [List.filter_cons, h] <;> omega

/-- A converted test's status is `passed`, `failed` or `skipped`. -/
theorem convert_status_cases (norm : JSStr → JSStr) (tc : JUnitTestCase) (b : Bool) :
    (convertToCTRFTest norm tc b).status = Status.passed ∨
      (convertToCTRFTest norm tc b).status = Status.failed ∨
      (convertToCTRFTest norm tc b).status = Status.skipped := by
  have hst : (convertToCTRFTest norm tc b).status = (processTestWithRetries norm tc).finalStatus := rfl
  rw [hst]
  exact finalStatus_cases norm tc

/-- A converted test carrying `flaky = true` has status `passed`. -/
theorem convert_flaky_passed (norm : JSStr → JSStr) (tc : JUnitTestCase) (b : Bool)
    (h : (convertToCTRFTest norm tc b).flaky = some true) :
    (convertToCTRFTest norm tc b).status = Status.passed := by
  have hf : (convertToCTRFTest norm tc b).flaky =
      (if (processTestWithRetries norm tc).isFlaky then some true else none) := rfl
  have hst : (convertToCTRFTest norm tc b).status = (processTestWithRetries norm tc).finalStatus := rfl
  rw [hst]
  rw [hf] at h
  by_cases hfl : (processTestWithRetries norm tc).isFlaky = true
  · exact finalStatus_of_isFlaky norm tc hfl
  · rw [if_neg hfl] at h
    cases h

/-- C8: for every input list the summary satisfies
`passed + failed + skipped + pending + other = tests`, `pending` and `other`
are 0, and the `flaky` key is present iff some produced test has
`flaky = true`, in which case it counts exactly those tests. -/
theorem summary_counts_invariant (norm : JSStr → JSStr) (tcs : List JUnitTestCase)
    (tn : Option JSStr) (ep : Option (List (JSStr × JSStr))) (us : Option Bool) (ts : JSStr) :
    ((createCTRFReport norm tcs tn ep us ts).results.summary.passed +
        (createCTRFReport norm tcs tn ep us ts).results.summary.failed +
        (createCTRFReport norm tcs tn ep us ts).results.summary.skipped +
        (createCTRFReport norm tcs tn ep us ts).results.summary.pending +
        (createCTRFReport norm tcs tn ep us ts).results.summary.other =
          (createCTRFReport norm tcs tn ep us ts).results.summary.tests) ∧
      (createCTRFReport norm tcs tn ep us ts).results.summary.pending = 0 ∧
      (createCTRFReport norm tcs tn ep us ts).results.summary.other = 0 ∧
      ((createCTRFReport norm tcs tn ep us ts).results.summary.flaky ≠ none ↔
        ∃ t ∈ (createCTRFReport norm tcs tn ep us ts).results.tests, t.flaky = some true) ∧
      (∀ k, (createCTRFReport norm tcs tn ep us ts).results.summary.flaky = some k →
        k = ((createCTRFReport norm tcs tn ep us ts).results.tests.filter
          (fun t => decide (t.flaky = some true))).length) := by
  rw [report_summary_passed, report_summary_failed, report_summary_skipped,
    report_summary_pending, report_summary_other, report_summary_tests,
    report_summary_flaky, report_tests_eq]
  set l := tcs.map (fun tc => convertToCTRFTest norm tc (us == some true)) with hl
  have hpend : l.filter (fun t => decide (t.status = Status.pending)) = [] := by
    rw [List.filter_eq_nil_iff]
    intro t htl
    rw [hl, List.mem_map] at htl
    obtain ⟨tc, -, rfl⟩ := htl
    rcases convert_status_cases norm tc (us == some true) with h | h | h <;> simp [h]
  have hoth : l.filter (fun t => decide (t.status = Status.other)) = [] := by
    rw [List.filter_eq_nil_iff]
    intro t htl
    rw [hl, List.mem_map] at htl
    obtain ⟨tc, -, rfl⟩ := htl
    rcases convert_status_cases norm tc (us == some true) with h | h | h <;> simp [h]
  refine ⟨status_filter_sum l, by rw [hpend]; rfl, by rw [hoth]; rfl, ?_, ?_⟩
  · constructor
    · intro hne
      by_cases hpos : (l.filter (fun t => decide (t.flaky = some true))).length > 0
      · have hfil : l.filter (fun t => decide (t.flaky = some true)) ≠ [] := by
          intro hnil
          rw [hnil] at hpos
          simp at hpos
        obtain ⟨t, htm⟩ := List.exists_mem_of_ne_nil _ hfil
        rw [List.mem_filter] at htm
        exact ⟨t, htm.1, by simpa using htm.2⟩
      · rw [if_neg hpos] at hne
        exact absurd rfl hne
    · rintro ⟨t, htl, htf⟩
      have hpos : 0 < (l.filter (fun t => decide (t.flaky = some true))).length := by
        rw [List.length_pos]
        exact List.ne_nil_of_mem (List.mem_filter.mpr ⟨htl, by simp [htf]⟩)
      rw [if_pos hpos]
      simp
  · intro k hk
    by_cases hpos : (l.filter (fun t => decide (t.flaky = some true))).length > 0
    · rw [if_pos hpos] at hk
      cases hk
      rfl
    · rw [if_neg hpos] at hk
      cases hk

/-- C10: every produced test with `flaky = true` has status `passed`, and
the summary's `flaky` count, when present, never exceeds its `passed`
count. -/
theorem report_flaky_bound (norm : JSStr → JSStr) (tcs : List JUnitTestCase)
    (tn : Option JSStr) (ep : Option (List (JSStr × JSStr))) (us : Option Bool) (ts : JSStr) :
    (∀ t ∈ (createCTRFReport norm tcs tn ep us ts).results.tests,
        t.flaky = some true → t.status = Status.passed) ∧
      ∀ k, (createCTRFReport norm tcs tn ep us ts).results.summary.flaky = some k →
        k ≤ (createCTRFReport norm tcs tn ep us ts).results.summary.passed := by
  constructor
  · intro t ht hf
    rw [report_tests_eq, List.mem_map] at ht
    obtain ⟨tc, -, rfl⟩ := ht
    exact convert_flaky_passed norm tc (us == some true) hf
  · intro k hk
    rw [report_summary_flaky] at hk
    rw [report_summary_passed]
    set l := tcs.map (fun tc => convertToCTRFTest norm tc (us == some true)) with hl
    by_cases hpos : (l.filter (fun t => decide (t.flaky = some true))).length > 0
    · rw [if_pos hpos] at hk
      cases hk
      rw [← List.countP_eq_length_filter, ← List.countP_eq_length_filter]
      apply List.countP_mono_left
      intro t htl hp
      rw [hl, List.mem_map] at htl
      obtain ⟨tc, -, rfl⟩ := htl
      simp only [decide_eq_true_eq] at hp ⊢
      exact convert_flaky_passed norm tc (us == some true) hp
    · rw [if_neg hpos] at hk
      cases hk
